import Mathlib

/-!
Verification development for the TC420 LED-controller library
(`src/tc420/tc420.py`).  The Python code is shallowly embedded: the
64-byte wire frame is a `List Nat` of byte values, the mutable packet
object becomes a structure threaded through the codec operations, and
Python `assert` / `struct.pack` range failures become `Option.none`.
Real-valued wall-clock arithmetic of the play engine is modelled over
`ℚ`; Python's `round` (round-half-to-even) is modelled exactly by
`pyRound`.
-/

/-- Embedding of the class `TC420Packet`: `clsCommand` is the
subclass's fixed class attribute `_command` (as a byte value),
`payload` the 64-byte buffer, `pointer` the write/read cursor. -/
structure TC420Packet where
  clsCommand : Nat
  payload : List Nat
  pointer : Nat
deriving Repr, DecidableEq

/-- Python slice assignment `l[pos:pos+len(d)] = d` (for in-bounds
`pos + len d ≤ l.length`, which the codec's assertion guarantees). -/
def writeSlice (l : List Nat) (pos : Nat) (d : List Nat) : List Nat :=
  l.take pos ++ d ++ l.drop (pos + d.length)

/-- Constructor `TC420Packet.__init__` with `command=None, payload=None`: fresh
64-byte buffer `magic ++ command ++ 59 zeros ++ 0x0d 0x0a`, cursor 5. -/
def TC420Packet.new (clsCommand : Nat) : TC420Packet :=
  ⟨clsCommand, [0x55, 0xAA, clsCommand] ++ List.replicate 59 0 ++ [0x0D, 0x0A], 5⟩

/-- Constructor `TC420Packet.__init__` with an explicit `payload` (used by `send`
to decode the device's response; the class command byte of the base
class is 0x00). -/
def TC420Packet.ofPayload (clsCommand : Nat) (payload : List Nat) : TC420Packet :=
  ⟨clsCommand, payload, 5⟩

/-- Method `add_string`: empty data returns immediately; an
unspecified position uses the cursor and advances it; a negative
position addresses from the end (`64 + position`); the assertion
`position + len(d) <= 62` becomes `none` on violation. -/
def TC420Packet.add_string (p : TC420Packet) (d : List Nat)
    (position : Option Int) : Option TC420Packet :=
  if d = [] then
    some p
  else
    match position with
    | none =>
        if (p.pointer : Int) + d.length ≤ 62 then
          some { p with
                 payload := writeSlice p.payload p.pointer d,
                 pointer := p.pointer + d.length }
        else none
    | some pos =>
        let pos' : Int := if pos < 0 then 64 + pos else pos
        if pos' + d.length ≤ 62 then
          some { p with payload := writeSlice p.payload pos'.toNat d }
        else none

/-- Method `add_uchar`: `pack("!B", d)` requires `0 ≤ d ≤ 255`. -/
def TC420Packet.add_uchar (p : TC420Packet) (d : Nat)
    (position : Option Int) : Option TC420Packet :=
  if d ≤ 255 then p.add_string [d] position else none

/-- Method `add_ushort`: `pack("!H", d)` writes big-endian, requires `d ≤ 65535`. -/
def TC420Packet.add_ushort (p : TC420Packet) (d : Nat)
    (position : Option Int) : Option TC420Packet :=
  if d ≤ 65535 then p.add_string [d / 256, d % 256] position else none

/-- Method `get_string`.  With no position the cursor is used and
advanced; a negative position addresses from the end; with no length
the Python code computes `56 - position` (a `TypeError`, hence `none`,
when the position is also absent).  The assertion `p + length <= 62`
becomes `none`. -/
def TC420Packet.get_string (pkt : TC420Packet) (position : Option Int)
    (length : Option Nat) : Option (List Nat × TC420Packet) :=
  match position with
  | none =>
      match length with
      | none => none
      | some len =>
          if (pkt.pointer : Int) + len ≤ 62 then
            some ((pkt.payload.drop pkt.pointer).take len,
                  { pkt with pointer := pkt.pointer + len })
          else none
  | some pos =>
      let p : Int := if pos < 0 then 64 + pos else pos
      let len : Int := match length with
        | none => 56 - pos
        | some l => (l : Int)
      if p + len ≤ 62 then
        some ((pkt.payload.drop p.toNat).take len.toNat, pkt)
      else none

/-- Method `get_uchar`: `unpack("!B", ...)` needs exactly one byte. -/
def TC420Packet.get_uchar (pkt : TC420Packet) (position : Option Int) :
    Option (Nat × TC420Packet) :=
  (pkt.get_string position (some 1)).bind fun sp =>
    match sp.1 with
    | [b] => some (b, sp.2)
    | _ => none

/-- Method `get_ushort`: `unpack("!H", ...)` needs exactly two bytes, big-endian. -/
def TC420Packet.get_ushort (pkt : TC420Packet) (position : Option Int) :
    Option (Nat × TC420Packet) :=
  (pkt.get_string position (some 2)).bind fun sp =>
    match sp.1 with
    | [b1, b2] => some (b1 * 256 + b2, sp.2)
    | _ => none

/-- Method `set_data_len`: default length is `pointer - 5`; asserts `≤ 56`;
writes it as a big-endian ushort at absolute position 3. -/
def TC420Packet.set_data_len (p : TC420Packet) (data_len : Option Nat) :
    Option TC420Packet :=
  let dl := data_len.getD (p.pointer - 5)
  if dl ≤ 56 then p.add_ushort dl (some 3) else none

/-- Method `calc_checksum`: byte-wise sum of `payload[:-3]` reduced mod 256 at
each step. -/
def TC420Packet.calc_checksum (p : TC420Packet) : Nat :=
  (p.payload.take (p.payload.length - 3)).foldl (fun acc b => (acc + b) % 256) 0

/-- Method `set_checksum`: default value is `calc_checksum`; written as a uchar
at position `-3` (absolute offset 61). -/
def TC420Packet.set_checksum (p : TC420Packet) (checksum : Option Nat) :
    Option TC420Packet :=
  p.add_uchar (checksum.getD p.calc_checksum) (some (-3))

/-- Method `TC420Packet.__call__`: finalize the packet for transmission.
Updates the data length and then the checksum (when requested) and
returns the updated packet together with the bytes to transmit. -/
def TC420Packet.call (p : TC420Packet) (update_data_len update_checksum : Bool) :
    Option (TC420Packet × List Nat) := do
  let p1 ← if update_data_len then p.set_data_len none else some p
  let p2 ← if update_checksum then p1.set_checksum none else some p1
  return (p2, p2.payload)

/-- Property `magic`: bytes at positions 0..1. -/
def TC420Packet.magic (p : TC420Packet) : Option (List Nat) :=
  (p.get_string (some 0) (some 2)).map (·.1)

/-- Property `data_len`: big-endian ushort at position 3. -/
def TC420Packet.data_len (p : TC420Packet) : Option Nat :=
  (p.get_ushort (some 3)).map (·.1)

/-- Property `command`: the uchar at position 2. -/
def TC420Packet.command (p : TC420Packet) : Option Nat :=
  (p.get_uchar (some 2)).map (·.1)

/-- Property `data`: the first `data_len` bytes of the data region. -/
def TC420Packet.data (p : TC420Packet) : Option (List Nat) :=
  p.data_len.bind fun dl => (p.get_string (some 5) (some dl)).map (·.1)

/-- Property `checksum`: the uchar at position `-3` (offset 61). -/
def TC420Packet.checksum (p : TC420Packet) : Option Nat :=
  (p.get_uchar (some (-3))).map (·.1)

/-! ## Command packets -/

/-- Components of a Python `datetime` as used by the library. -/
structure PyDateTime where
  year : Nat
  month : Nat
  day : Nat
  hour : Nat
  minute : Nat
  second : Nat
deriving Repr, DecidableEq

/-- Constructor `TimeSyncPacket.__init__` (command 0x11): when `date` is `None` the
host clock `now` is used; then year (u16 BE), month, day, hour, minute,
second (each u8) are appended. -/
def TimeSyncPacket (now : PyDateTime) (date : Option PyDateTime) :
    Option TC420Packet := do
  let d := date.getD now
  let p := TC420Packet.new 0x11
  let p ← p.add_ushort d.year none
  let p ← p.add_uchar d.month none
  let p ← p.add_uchar d.day none
  let p ← p.add_uchar d.hour none
  let p ← p.add_uchar d.minute none
  p.add_uchar d.second none

/-- Constructor `ModeInitPacket.__init__` (command 0x12): asserts `step_count > 1`
and `1 ≤ len(name) ≤ 8`; appends bank, step count and the name bytes. -/
def ModeInitPacket (step_count : Nat) (name : List Nat) (bank : Nat) :
    Option TC420Packet :=
  if step_count > 1 ∧ name.length ≤ 8 ∧ name.length > 0 then do
    let p := TC420Packet.new 0x12
    let p ← p.add_uchar bank none
    let p ← p.add_uchar step_count none
    p.add_string name none
  else none

/-- The in-place jump adjustment of `ModeStepPacket.__init__`: a
negative channel code `c` is replaced by `-c - 1`. -/
def jumpAdjust (c : Int) : Int :=
  if c < 0 then -c - 1 else c

/-- The wire byte written for one channel code in `ModeStepPacket`:
`min(100, abs(...))` of the jump-adjusted value. -/
def chByte (c : Int) : Nat :=
  min 100 (jumpAdjust c).natAbs

/-- The jump-flag bitmask of `ModeStepPacket.__init__`: bit `b` is set
exactly when channel `b`'s original code is negative. -/
def jumpFlags : List Int → Nat → Nat
  | [], _ => 0
  | c :: rest, b => (if c < 0 then 1 <<< b else 0) ||| jumpFlags rest (b + 1)

/-- Constructor `ModeStepPacket.__init__` (command 0x13): hour, minute, the five
jump-adjusted clamped channel bytes, then the jump-flag byte. -/
def ModeStepPacket (hour minute : Nat) (c1 c2 c3 c4 c5 : Int) :
    Option TC420Packet := do
  let flags := jumpFlags [c1, c2, c3, c4, c5] 0
  let p := TC420Packet.new 0x13
  let p ← p.add_uchar hour none
  let p ← p.add_uchar minute none
  let p ← p.add_uchar (chByte c1) none
  let p ← p.add_uchar (chByte c2) none
  let p ← p.add_uchar (chByte c3) none
  let p ← p.add_uchar (chByte c4) none
  let p ← p.add_uchar (chByte c5) none
  p.add_uchar flags none

/-- Packet `ModeStepsStopPacket` (command 0x01): the bare envelope. -/
def ModeStepsStopPacket : TC420Packet :=
  TC420Packet.new 0x01

/-- Packet `ModeStopPacket` (command 0x02): the bare envelope. -/
def ModeStopPacket : TC420Packet :=
  TC420Packet.new 0x02

/-- Packet `ModeClearAllPacket` (command 0x03): the bare envelope. -/
def ModeClearAllPacket : TC420Packet :=
  TC420Packet.new 0x03

/-- Constructor `PlayInitPacket.__init__` (command 0x15): asserts `1 ≤ len(name) ≤ 8`;
appends the name bytes and the constant ushort 0x7f. -/
def PlayInitPacket (name : List Nat) : Option TC420Packet :=
  if name.length ≤ 8 ∧ name.length > 0 then do
    let p := TC420Packet.new 0x15
    let p ← p.add_string name none
    p.add_ushort 0x7f none
  else none

/-- Constructor `PlaySetChannels.__init__` (command 0x16): the constant 0xf5, then
`min(100, abs(code))` for each of the five channels, then a constant 0
flags byte (jump flags are not applied for this command). -/
def PlaySetChannels (c1 c2 c3 c4 c5 : Int) : Option TC420Packet := do
  let p := TC420Packet.new 0x16
  let p ← p.add_uchar 0xf5 none
  let p ← p.add_uchar (min 100 c1.natAbs) none
  let p ← p.add_uchar (min 100 c2.natAbs) none
  let p ← p.add_uchar (min 100 c3.natAbs) none
  let p ← p.add_uchar (min 100 c4.natAbs) none
  let p ← p.add_uchar (min 100 c5.natAbs) none
  p.add_uchar 0 none

/-! ## Device channel: `TC420.send` -/

/-- Constant `TC420.OK`, the single acknowledgment byte. -/
def TC420.OK : List Nat := [0x00]

/-- The observable effect of one `TC420.send` exchange: the frame
written to the out endpoint, whether a response read was attempted,
and the boolean result. -/
structure SendResult where
  frame : List Nat
  readAttempted : Bool
  result : Bool
deriving Repr, DecidableEq

/-- Method `TC420.send(packet, check)`: finalize and write the frame; read and
decode a 64-byte response unless the packet's class command is the
mode-steps-stop command (0x01); with `check` on and a response present,
success means the decoded response has `data_len == 1` and
`data == OK`. `response` stands for the bytes the device would return
to the one read of this exchange. -/
def TC420.send (pkt : TC420Packet) (check : Bool) (response : List Nat) :
    Option SendResult := do
  let (_, frame) ← pkt.call true true
  if pkt.clsCommand ≠ ModeStepsStopPacket.clsCommand then
    let res_pkt := TC420Packet.ofPayload 0 response
    let res := if check then
        decide (res_pkt.data_len = some 1) && decide (res_pkt.data = some TC420.OK)
      else true
    return ⟨frame, true, res⟩
  else
    return ⟨frame, false, true⟩

/-! ## Program controller: `TC420.mode` and `TC420.time_sync` -/

/-- Whether a device response payload decodes as a success
acknowledgment (`data_len == 1 and data == OK`), exactly the condition
`send` evaluates when `check` is on. -/
def ackOk (response : List Nat) : Bool :=
  let res_pkt := TC420Packet.ofPayload 0 response
  decide (res_pkt.data_len = some 1) && decide (res_pkt.data = some TC420.OK)

/-- One step argument of `TC420.mode`: the wall-clock time marker and
five channel codes. -/
structure ModeStep where
  hour : Nat
  minute : Nat
  c1 : Int
  c2 : Int
  c3 : Int
  c4 : Int
  c5 : Int
deriving Repr, DecidableEq

/-- The packet `TC420.mode` builds for one step. -/
def ModeStep.packet (s : ModeStep) : Option TC420Packet :=
  ModeStepPacket s.hour s.minute s.c1 s.c2 s.c3 s.c4 s.c5

/-- The outcome of a (partial) run of `TC420.mode`: the frames written
to the device in order, the number of response reads performed, and
whether the run completed (a failed exchange raises `AssertionError`,
recorded as `ok = false`). -/
structure ModeTrace where
  frames : List (List Nat)
  reads : Nat
  ok : Bool
deriving Repr, DecidableEq

/-- The step loop of `TC420.mode`: send each step packet in order,
aborting at the first exchange whose result is false.  `dev n` is the
response the device returns to the `n`-th read of the session. -/
def modeSteps (dev : Nat → List Nat) : List ModeStep → Nat → Option ModeTrace
  | [], reads => some ⟨[], reads, true⟩
  | s :: rest, reads => do
      let pkt ← s.packet
      let r ← TC420.send pkt true (dev reads)
      if r.result then do
        let t ← modeSteps dev rest (reads + 1)
        return ⟨r.frame :: t.frames, t.reads, t.ok⟩
      else
        return ⟨[r.frame], reads + 1, false⟩

/-- Method `TC420.mode(name, steps, bank)`: asserts `len(steps) >= 2`, a
non-empty name and `bank < 64`; sends the mode-init packet and requires
success; sends every step packet in order, each requiring success; then
sends the mode-steps-stop packet (for which `send` performs no read).
The result records the transmitted frames, the reads performed, and
whether the call returned `True` (`ok`) or aborted on a failed
exchange. -/
def TC420.mode (dev : Nat → List Nat) (name : List Nat)
    (steps : List ModeStep) (bank : Nat) : Option ModeTrace :=
  if steps.length ≥ 2 ∧ name ≠ [] ∧ bank < 64 then do
    let initPkt ← ModeInitPacket steps.length name bank
    let r ← TC420.send initPkt true (dev 0)
    if r.result then do
      let t ← modeSteps dev steps 1
      if t.ok then do
        let rs ← TC420.send ModeStepsStopPacket true (dev t.reads)
        return ⟨r.frame :: t.frames ++ [rs.frame], t.reads, true⟩
      else
        return ⟨r.frame :: t.frames, t.reads, false⟩
    else
      return ⟨[r.frame], 1, false⟩
  else none

/-- Method `TC420.time_sync(date)`: the Python body is
`return self.send(TimeSyncPacket())` — the packet is constructed with
`date=None` (hence from the host clock `now`), and the `date`
parameter of `time_sync` itself is never used. -/
def TC420.time_sync (now : PyDateTime) (date : Option PyDateTime)
    (response : List Nat) : Option SendResult := do
  let _ := date
  let pkt ← TimeSyncPacket now none
  TC420.send pkt true response

/-! ## Play engine -/

/-- Python's `round`: round half to even. -/
def pyRound (q : ℚ) : ℤ :=
  let f := q.floor
  if q - f < 1 / 2 then f
  else if q - f > 1 / 2 then f + 1
  else if 2 ∣ f then f else f + 1

/-- One channel's new displayed value in the playing thread: a negative
(jump-coded) target is displayed as `abs(target) - 1` immediately,
otherwise the value is linearly interpolated from the baseline and
rounded. -/
def newChannelValue (dur elapsed : ℚ) (target lastv : Int) : Int :=
  if target < 0 then (target.natAbs : Int) - 1
  else
    let dcv : ℚ := (target : ℚ) - (lastv : ℚ)
    pyRound ((lastv : ℚ) + dcv * (elapsed / dur))

/-- The play-session state shared between the caller and the playing
thread: step index, baseline values (`last_channel_values`), displayed
values (`cur_channel_values`), the pending step (duration and five
channel targets) and its start timestamp. -/
structure PlayState where
  idx : Nat
  last : List Int
  cur : List Int
  stepData : Option (ℚ × List Int)
  stepStart : ℚ
deriving Repr, DecidableEq

/-- The observable outcome of one iteration of the playing thread's
loop body (for the part guarded by `_play_step_data is not None`):
the updated state, whether `onchange_callback` was invoked, and the
channel values sent via `PlaySetChannels` (if any). -/
structure IterResult where
  state : PlayState
  onchangeCalled : Bool
  sent : Option (List Int)
deriving Repr, DecidableEq

/-- One iteration of the `playing_thread` loop body with a pending
step, at wall-clock time `now` and with `hasCallback` recording whether
an `onchange_callback` was supplied.  If the elapsed time has reached
the step duration, the targets are committed as the new baseline and
displayed values and the step is cleared; otherwise each channel's new
value is computed and becomes the displayed value.  The callback is
invoked (when supplied) and the displayed values are sent on every such
iteration. -/
def playIteration (st : PlayState) (now : ℚ) (hasCallback : Bool) : IterResult :=
  match st.stepData with
  | none => ⟨st, false, none⟩
  | some (dur, targets) =>
      let elapsed := now - st.stepStart
      if elapsed ≥ dur then
        let st' := { st with last := targets, cur := targets,
                             idx := st.idx + 1, stepData := none }
        ⟨st', hasCallback, some targets⟩
      else
        let newVals := (List.range 5).map fun c =>
          newChannelValue dur elapsed (targets.getD c 0) (st.last.getD c 0)
        let cur' := if newVals ≠ st.cur then newVals else st.cur
        ⟨{ st with cur := cur' }, hasCallback, some cur'⟩

/-! ## Device enumerator -/

/-- The outcome of the indexed device-selection path of
`TC420.__init__`: a bound device, the `NoDeviceFoundError` raise, or
the `IndexError` Python's `list[i]` raises for an index out of range
even after negative-index adjustment. -/
inductive SelectResult (α : Type) where
  | found : α → SelectResult α
  | noDeviceFound : SelectResult α
  | indexError : SelectResult α
deriving Repr, DecidableEq

/-- The device list sorted by the `usb_path` key, as
`list.sort(devices, key=usb_path)` produces (stable merge sort on the
key's total order). -/
def sortDevices {α : Type} (devices : List α) (key : α → String) : List α :=
  devices.mergeSort fun a b => key a ≤ key b

/-- The indexed selection logic of `TC420.__init__` (the
`dev_index is not None` branch): raise `NoDeviceFoundError` when no
device matches or when `dev_index >= len(devices)`; otherwise sort by
the usb path and evaluate `devices[dev_index]` with Python list-index
semantics (a negative index counts from the end; an index still out of
range raises `IndexError`). -/
def selectDevice {α : Type} (devices : List α) (key : α → String)
    (dev_index : Int) : SelectResult α :=
  if devices.isEmpty then .noDeviceFound
  else if (devices.length : Int) ≤ dev_index then .noDeviceFound
  else
    let sorted := sortDevices devices key
    let i : Int := if dev_index < 0 then dev_index + sorted.length else dev_index
    if h : 0 ≤ i ∧ i < sorted.length then
      .found (sorted.get ⟨i.toNat, by omega⟩)
    else .indexError

/-! ## Helper definitions for stating the properties -/

/-- Helper: the chain of cursor-positioned uchar writes that the packet
constructors perform. -/
def addUchars (p : TC420Packet) : List Nat → Option TC420Packet
  | [] => some p
  | d :: ds => (p.add_uchar d none).bind fun q => addUchars q ds

/-- Helper: the finalized wire bytes of an (optionally constructed)
packet, i.e. what `send` writes to the out endpoint for it. -/
def wireOf (op : Option TC420Packet) : List Nat :=
  ((op.bind fun p => p.call true true).map (·.2)).getD []

/-- Helper: the wire bytes of the packet `TC420.mode` builds for one
step. -/
def stepWire (s : ModeStep) : List Nat :=
  wireOf s.packet

/-! ## Concrete inputs used by the witnesses -/

/-- Witness input: a successful acknowledgment response payload
(64 bytes, `data_len = 1`, `data = [0x00]`). -/
def wAckResp : List Nat := [0, 0, 0, 0, 1, 0] ++ List.replicate 58 0

/-- Witness input: a host-clock date used to exhibit the `time_sync`
date-argument bug. -/
def wNowDate : PyDateTime := ⟨2023, 6, 7, 8, 9, 10⟩

/-- Witness input: the date 2024-01-15 10:30:45 from the claim. -/
def wClaimDate : PyDateTime := ⟨2024, 1, 15, 10, 30, 45⟩

/-- Witness input: a first mode step. -/
def wStep1 : ModeStep := ⟨8, 0, 10, 20, 30, 40, 50⟩

/-- Witness input: a second mode step. -/
def wStep2 : ModeStep := ⟨9, 30, -1, 0, 100, -101, 60⟩

/-- Witness input: a play-session state whose pending step has run to
completion. -/
def wExpiredState : PlayState :=
  ⟨0, [0, 0, 0, 0, 0], [50, 0, 0, 0, 0], some (10, [100, 0, 0, 0, 0]), 0⟩

/-- Witness input: the finalized `ModeStopPacket` wire frame. -/
def wStopFrame : List Nat :=
  [0x55, 0xAA, 0x02, 0, 0] ++ List.replicate 56 0 ++ [1, 0x0D, 0x0A]

/-- Witness input: the send outcome for `ModeStopPacket` against
`wAckResp`. -/
def wSendRes : SendResult := ⟨wStopFrame, true, true⟩

/-- Witness input: a packet with one byte written, used for the cursor
claim. -/
def wWritten : TC420Packet :=
  ⟨0, [0x55, 0xAA, 0, 0, 0, 7] ++ List.replicate 56 0 ++ [0x0D, 0x0A], 6⟩

/-! ## Machinery: evaluating the codec on symbolic payloads -/

/-- Writing at the boundary of an append replaces the head of the right
part. -/
theorem writeSlice_append (A c d : List Nat) :
    writeSlice (A ++ c) A.length d = A ++ (d ++ c.drop d.length) := by
  have h2 : List.drop (A.length + d.length) (A ++ c) = c.drop d.length := by
    rw [← List.drop_drop, List.drop_left]
  rw [writeSlice, List.take_left, h2, List.append_assoc]

/-- Variant of `writeSlice_append` with the position given numerically. -/
theorem writeSlice_append' (A c d : List Nat) (n : Nat) (h : A.length = n) :
    writeSlice (A ++ c) n d = A ++ (d ++ c.drop d.length) :=
  h ▸ writeSlice_append A c d

/-- Writing never changes the buffer length while it stays in bounds. -/
theorem writeSlice_length (l d : List Nat) (pos : Nat)
    (h : pos + d.length ≤ l.length) : (writeSlice l pos d).length = l.length := by
  simp [writeSlice]
  omega

/-- Evaluation of a cursor-positioned `add_string` on a payload split at
the cursor. -/
theorem add_string_build (p : TC420Packet) (A rest d : List Nat)
    (hpay : p.payload = A ++ rest) (hptr : p.pointer = A.length)
    (hle : A.length + d.length ≤ 62) :
    p.add_string d none =
      some ⟨p.clsCommand, A ++ (d ++ rest.drop d.length), A.length + d.length⟩ := by
  rcases p with ⟨cls, payload, ptr⟩
  simp only at hpay hptr
  subst hpay hptr
  rcases d with _ | ⟨b, bs⟩
  · simp [TC420Packet.add_string]
  · rw [TC420Packet.add_string]
    simp only [reduceCtorEq, if_false, reduceIte]
    rw [if_pos (by omega)]
    simp [writeSlice_append]

/-- Evaluation of a chain of cursor-positioned uchar writes. -/
theorem addUchars_build (ds : List Nat) : ∀ (p : TC420Packet) (A rest : List Nat),
    p.payload = A ++ rest → p.pointer = A.length →
    (∀ d ∈ ds, d ≤ 255) → A.length + ds.length ≤ 62 →
    addUchars p ds =
      some ⟨p.clsCommand, A ++ (ds ++ rest.drop ds.length), A.length + ds.length⟩ := by
  induction ds with
  | nil =>
      intro p A rest hpay hptr _ _
      simp [addUchars]
      cases p; simp_all
  | cons d ds ih =>
      intro p A rest hpay hptr hbound hle
      have h1 : p.add_uchar d none =
          some ⟨p.clsCommand, A ++ ([d] ++ rest.drop 1), A.length + 1⟩ := by
        rw [TC420Packet.add_uchar, if_pos (hbound d (by simp))]
        exact add_string_build p A rest [d] hpay hptr (by simp at hle ⊢; omega)
      rw [addUchars, h1, Option.some_bind]
      have h2 := ih ⟨p.clsCommand, A ++ ([d] ++ rest.drop 1), A.length + 1⟩
        (A ++ [d]) (rest.drop 1) (by simp) (by simp) (fun x hx => hbound x (by simp [hx]))
        (by simp at hle ⊢; omega)
      rw [h2]
      simp [List.drop_drop]
      omega

/-- Evaluation of a positioned (non-negative) `add_string`. -/
theorem add_string_at (p : TC420Packet) (pos : Nat) (d : List Nat) (hd : d ≠ [])
    (hle : pos + d.length ≤ 62) :
    p.add_string d (some pos) =
      some ⟨p.clsCommand, writeSlice p.payload pos d, p.pointer⟩ := by
  rw [TC420Packet.add_string]
  rcases d with _ | ⟨b, bs⟩
  · simp at hd
  · simp only [reduceCtorEq, if_false, reduceIte]
    have h0 : ¬ ((pos : Int) < 0) := by omega
    rw [if_neg h0]
    rw [if_pos (by omega)]
    norm_num

/-- Evaluation of the single-byte write at position `-3`: it lands at
absolute offset 61 and leaves the cursor alone. -/
theorem add_string_neg3 (p : TC420Packet) (c : Nat) :
    p.add_string [c] (some (-3)) =
      some ⟨p.clsCommand, writeSlice p.payload 61 [c], p.pointer⟩ := by
  rw [TC420Packet.add_string]
  norm_num
  rfl

/-- The mod-256 running sum never leaves `0..255`. -/
theorem foldl_mod_le (l : List Nat) : ∀ a, a ≤ 255 →
    l.foldl (fun acc b => (acc + b) % 256) a ≤ 255 := by
  induction l with
  | nil => intro a ha; simpa using ha
  | cons b bs ih =>
      intro a ha
      simp only [List.foldl_cons]
      exact ih _ (Nat.le_of_lt_succ (Nat.mod_lt _ (by norm_num)))

/-- The mod-256 running sum equals the plain sum reduced mod 256. -/
theorem foldl_mod_eq (l : List Nat) : ∀ a, a ≤ 255 →
    l.foldl (fun acc b => (acc + b) % 256) a = (a + l.sum) % 256 := by
  induction l with
  | nil => intro a ha; simp [Nat.mod_eq_of_lt (by omega : a < 256)]
  | cons b bs ih =>
      intro a ha
      simp only [List.foldl_cons, List.sum_cons]
      rw [ih _ (Nat.le_of_lt_succ (Nat.mod_lt _ (by norm_num)))]
      conv_rhs => rw [← Nat.add_assoc]
      rw [Nat.mod_add_mod]

/-- Checksums fit in one byte. -/
theorem calc_checksum_le (p : TC420Packet) : p.calc_checksum ≤ 255 :=
  foldl_mod_le _ 0 (by norm_num)

/-- Channel wire bytes fit in one byte. -/
theorem chByte_le (c : Int) : chByte c ≤ 255 :=
  le_trans (min_le_left _ _) (by norm_num)

/-- The five-channel jump-flag byte fits in one byte. -/
theorem jumpFlags5_le (c1 c2 c3 c4 c5 : Int) : jumpFlags [c1, c2, c3, c4, c5] 0 ≤ 255 := by
  simp only [jumpFlags]
  split_ifs <;> decide

/-! ## Finalization and exchange evaluation -/

theorem set_checksum_eq (p : TC420Packet) :
    p.set_checksum none =
      some ⟨p.clsCommand, writeSlice p.payload 61 [p.calc_checksum], p.pointer⟩ := by
  rw [TC420Packet.set_checksum]
  show p.add_uchar p.calc_checksum (some (-3)) = _
  rw [TC420Packet.add_uchar, if_pos (calc_checksum_le p)]
  exact add_string_neg3 p _

theorem set_data_len_eval (p : TC420Packet) (h5 : 5 ≤ p.pointer) (h61 : p.pointer ≤ 61) :
    p.set_data_len none =
      some ⟨p.clsCommand, writeSlice p.payload 3 [0, p.pointer - 5], p.pointer⟩ := by
  rw [TC420Packet.set_data_len]
  show (if p.pointer - 5 ≤ 56 then p.add_ushort (p.pointer - 5) (some 3) else none) = _
  rw [if_pos (by omega)]
  rw [TC420Packet.add_ushort, if_pos (by omega)]
  have hdiv : (p.pointer - 5) / 256 = 0 := Nat.div_eq_of_lt (by omega)
  have hmod : (p.pointer - 5) % 256 = p.pointer - 5 := Nat.mod_eq_of_lt (by omega)
  rw [hdiv, hmod]
  exact add_string_at p 3 [0, p.pointer - 5] (by simp) (by simp)

theorem call_eq_steps (p q r : TC420Packet) (h1 : p.set_data_len none = some q)
    (h2 : q.set_checksum none = some r) :
    p.call true true = some (r, r.payload) := by
  simp [TC420Packet.call, h1, h2]

theorem call_exists (p : TC420Packet) (h5 : 5 ≤ p.pointer) (h61 : p.pointer ≤ 61) :
    ∃ q, p.call true true = some (q, q.payload) ∧ q.clsCommand = p.clsCommand := by
  have h1 := set_data_len_eval p h5 h61
  have h2 := set_checksum_eq ⟨p.clsCommand, writeSlice p.payload 3 [0, p.pointer - 5], p.pointer⟩
  exact ⟨_, call_eq_steps _ _ _ h1 h2, rfl⟩

theorem call_inv (p p' : TC420Packet) (frame : List Nat)
    (h : p.call true true = some (p', frame)) :
    ∃ p1, p.set_data_len none = some p1 ∧ p1.set_checksum none = some p' ∧
      frame = p'.payload := by
  rcases hsd : p.set_data_len none with _ | p1
  · have hnone : p.call true true = none := by simp [TC420Packet.call, hsd]
    rw [hnone] at h
    exact absurd h (by simp)
  · have hc := call_eq_steps p p1 _ hsd (set_checksum_eq p1)
    rw [hc, Option.some_inj] at h
    cases h
    exact ⟨p1, rfl, set_checksum_eq p1, rfl⟩

theorem send_eval (pkt q : TC420Packet) (w resp : List Nat) (check : Bool)
    (hcall : pkt.call true true = some (q, w)) (hcmd : pkt.clsCommand ≠ 0x01) :
    TC420.send pkt check resp = some ⟨w, true, if check then ackOk resp else true⟩ := by
  have hcmd' : pkt.clsCommand ≠ ModeStepsStopPacket.clsCommand := hcmd
  simp [TC420.send, hcall, hcmd', ackOk]

theorem send_stop_eval (resp : List Nat) :
    TC420.send ModeStepsStopPacket true resp =
      some ⟨wireOf (some ModeStepsStopPacket), false, true⟩ := by
  have hcall : ModeStepsStopPacket.call true true =
      some (⟨1, [0x55, 0xAA, 1, 0, 0] ++ List.replicate 56 0 ++ [0, 0x0D, 0x0A], 5⟩,
            [0x55, 0xAA, 1, 0, 0] ++ List.replicate 56 0 ++ [0, 0x0D, 0x0A]) := by decide
  simp [TC420.send, hcall, wireOf]

theorem accessors_eq_of_payload_eq (q r : TC420Packet) (h : q.payload = r.payload) :
    q.magic = r.magic ∧ q.command = r.command ∧ q.data_len = r.data_len ∧ q.data = r.data := by
  have hmagic : q.magic = r.magic := by
    simp [TC420Packet.magic, TC420Packet.get_string, h]
  have hcmd : q.command = r.command := by
    rw [TC420Packet.command, TC420Packet.command, TC420Packet.get_uchar, TC420Packet.get_uchar]
    simp only [TC420Packet.get_string, h]
    norm_num
    rcases hl : List.take 1 (List.drop 2 r.payload) with _ | ⟨b, _ | ⟨c, cs⟩⟩ <;> simp [hl]
  have hdl : q.data_len = r.data_len := by
    rw [TC420Packet.data_len, TC420Packet.data_len, TC420Packet.get_ushort, TC420Packet.get_ushort]
    simp only [TC420Packet.get_string, h]
    norm_num
    rcases hl : List.take 2 (List.drop 3 r.payload) with _ | ⟨b, _ | ⟨c, _ | ⟨e, es⟩⟩⟩ <;> simp [hl]
  have hdata : q.data = r.data := by
    rw [TC420Packet.data, TC420Packet.data, hdl]
    cases hdl2 : r.data_len with
    | none => rfl
    | some dl => simp [TC420Packet.get_string, h]
  exact ⟨hmagic, hcmd, hdl, hdata⟩

/-! ## Per-packet evaluation -/

set_option maxHeartbeats 1000000 in
theorem modeStep_bridge (hour minute : Nat) (c1 c2 c3 c4 c5 : Int) :
    ModeStepPacket hour minute c1 c2 c3 c4 c5 =
      addUchars (TC420Packet.new 0x13)
        [hour, minute, chByte c1, chByte c2, chByte c3, chByte c4, chByte c5,
         jumpFlags [c1, c2, c3, c4, c5] 0] := by
  simp only [ModeStepPacket, addUchars, Option.bind_eq_bind, Option.bind_some]

theorem modeStep_packet_eq (hour minute : Nat) (c1 c2 c3 c4 c5 : Int)
    (hh : hour ≤ 255) (hm : minute ≤ 255) :
    ModeStepPacket hour minute c1 c2 c3 c4 c5 =
      some ⟨0x13,
            [0x55, 0xAA, 0x13, 0, 0, hour, minute, chByte c1, chByte c2, chByte c3,
             chByte c4, chByte c5, jumpFlags [c1, c2, c3, c4, c5] 0] ++
              List.replicate 49 0 ++ [0x0D, 0x0A], 13⟩ := by
  rw [modeStep_bridge]
  have hb := addUchars_build
    [hour, minute, chByte c1, chByte c2, chByte c3, chByte c4, chByte c5,
     jumpFlags [c1, c2, c3, c4, c5] 0]
    (TC420Packet.new 0x13) [0x55, 0xAA, 0x13, 0, 0] (List.replicate 57 0 ++ [0x0D, 0x0A])
    (by rfl) (by rfl)
    (by
      intro d hd
      simp at hd
      rcases hd with h | h | h | h | h | h | h | h <;> subst h
      · exact hh
      · exact hm
      · exact chByte_le c1
      · exact chByte_le c2
      · exact chByte_le c3
      · exact chByte_le c4
      · exact chByte_le c5
      · exact jumpFlags5_le c1 c2 c3 c4 c5)
    (by simp)
  rw [hb]
  rfl

theorem modeStep_call (hour minute : Nat) (c1 c2 c3 c4 c5 : Int)
    (hh : hour ≤ 255) (hm : minute ≤ 255) :
    ∃ chk : Nat,
      ((ModeStepPacket hour minute c1 c2 c3 c4 c5).bind fun p => p.call true true) =
        some (⟨0x13,
               [0x55, 0xAA, 0x13, 0, 8, hour, minute, chByte c1, chByte c2, chByte c3,
                chByte c4, chByte c5, jumpFlags [c1, c2, c3, c4, c5] 0] ++
                 List.replicate 48 0 ++ [chk, 0x0D, 0x0A], 13⟩,
               [0x55, 0xAA, 0x13, 0, 8, hour, minute, chByte c1, chByte c2, chByte c3,
                chByte c4, chByte c5, jumpFlags [c1, c2, c3, c4, c5] 0] ++
                 List.replicate 48 0 ++ [chk, 0x0D, 0x0A]) := by
  rw [modeStep_packet_eq hour minute c1 c2 c3 c4 c5 hh hm, Option.some_bind]
  set p1 : TC420Packet :=
    ⟨0x13, [0x55, 0xAA, 0x13, 0, 0, hour, minute, chByte c1, chByte c2, chByte c3,
            chByte c4, chByte c5, jumpFlags [c1, c2, c3, c4, c5] 0] ++
             List.replicate 49 0 ++ [0x0D, 0x0A], 13⟩ with hp1
  have hsd : p1.set_data_len none =
      some ⟨0x13, [0x55, 0xAA, 0x13, 0, 8, hour, minute, chByte c1, chByte c2, chByte c3,
                   chByte c4, chByte c5, jumpFlags [c1, c2, c3, c4, c5] 0] ++
                    List.replicate 49 0 ++ [0x0D, 0x0A], 13⟩ := by
    rw [set_data_len_eval p1 (by norm_num [hp1]) (by norm_num [hp1])]
    rfl
  set p2 : TC420Packet :=
    ⟨0x13, [0x55, 0xAA, 0x13, 0, 8, hour, minute, chByte c1, chByte c2, chByte c3,
            chByte c4, chByte c5, jumpFlags [c1, c2, c3, c4, c5] 0] ++
             List.replicate 49 0 ++ [0x0D, 0x0A], 13⟩ with hp2
  refine ⟨p2.calc_checksum, ?_⟩
  have hsc : p2.set_checksum none =
      some ⟨0x13, [0x55, 0xAA, 0x13, 0, 8, hour, minute, chByte c1, chByte c2, chByte c3,
                   chByte c4, chByte c5, jumpFlags [c1, c2, c3, c4, c5] 0] ++
                    List.replicate 48 0 ++ [p2.calc_checksum, 0x0D, 0x0A], 13⟩ := by
    rw [set_checksum_eq p2]
    rfl
  rw [call_eq_steps p1 p2 _ hsd hsc]

theorem modeStep_data (hour minute : Nat) (c1 c2 c3 c4 c5 : Int)
    (hh : hour ≤ 255) (hm : minute ≤ 255) :
    (((ModeStepPacket hour minute c1 c2 c3 c4 c5).bind fun p => p.call true true).bind
        fun pr => pr.1.data) =
      some [hour, minute, chByte c1, chByte c2, chByte c3, chByte c4, chByte c5,
            jumpFlags [c1, c2, c3, c4, c5] 0] := by
  obtain ⟨chk, hc⟩ := modeStep_call hour minute c1 c2 c3 c4 c5 hh hm
  rw [hc, Option.some_bind]
  rfl

theorem add_uchar_build (p : TC420Packet) (A rest : List Nat) (d : Nat)
    (hpay : p.payload = A ++ rest) (hptr : p.pointer = A.length) (hd : d ≤ 255)
    (hle : A.length + 1 ≤ 62) :
    p.add_uchar d none = some ⟨p.clsCommand, A ++ ([d] ++ rest.drop 1), A.length + 1⟩ := by
  rw [TC420Packet.add_uchar, if_pos hd]
  exact add_string_build p A rest [d] hpay hptr (by simpa using hle)

theorem modeInit_exists (n : Nat) (name : List Nat) (bank : Nat)
    (hn1 : 1 < n) (hn : n ≤ 255) (hname1 : 0 < name.length) (hname8 : name.length ≤ 8)
    (hbank : bank ≤ 255) :
    ∃ pkt, ModeInitPacket n name bank = some pkt ∧ pkt.clsCommand = 0x12 ∧
      5 ≤ pkt.pointer ∧ pkt.pointer ≤ 61 := by
  rw [ModeInitPacket, if_pos ⟨hn1, hname8, hname1⟩]
  have h1 := add_uchar_build (TC420Packet.new 0x12) [0x55, 0xAA, 0x12, 0, 0]
    (List.replicate 57 0 ++ [0x0D, 0x0A]) bank (by rfl) (by rfl) hbank (by norm_num)
  simp only [h1, Option.bind_eq_bind, Option.some_bind]
  have h2 := add_uchar_build
    ⟨(TC420Packet.new 0x12).clsCommand,
     [0x55, 0xAA, 0x12, 0, 0] ++ ([bank] ++ List.drop 1 (List.replicate 57 0 ++ [0x0D, 0x0A])),
     [0x55, 0xAA, 0x12, 0, 0].length + 1⟩
    [0x55, 0xAA, 0x12, 0, 0, bank] (List.replicate 56 0 ++ [0x0D, 0x0A]) n
    (by rfl) (by rfl) hn (by norm_num)
  simp only [h2, Option.bind_eq_bind, Option.some_bind]
  have h3 := add_string_build
    ⟨(TC420Packet.new 0x12).clsCommand,
     [0x55, 0xAA, 0x12, 0, 0, bank] ++ ([n] ++ List.drop 1 (List.replicate 56 0 ++ [0x0D, 0x0A])),
     [0x55, 0xAA, 0x12, 0, 0, bank].length + 1⟩
    [0x55, 0xAA, 0x12, 0, 0, bank, n] (List.replicate 55 0 ++ [0x0D, 0x0A]) name
    (by rfl) (by rfl) (by simp; omega)
  simp only [h3, Option.bind_eq_bind, Option.some_bind]
  refine ⟨_, rfl, rfl, by simp only [List.length_cons, List.length_nil]; omega,
    by simp only [List.length_cons, List.length_nil]; omega⟩

theorem modeInit_send (n : Nat) (name : List Nat) (bank : Nat) (resp : List Nat)
    (hn1 : 1 < n) (hn : n ≤ 255) (hname1 : 0 < name.length) (hname8 : name.length ≤ 8)
    (hbank : bank ≤ 255) :
    ((ModeInitPacket n name bank).bind fun pkt => TC420.send pkt true resp) =
      some ⟨wireOf (ModeInitPacket n name bank), true, ackOk resp⟩ := by
  obtain ⟨pkt, hpkt, hcls, h5, h61⟩ := modeInit_exists n name bank hn1 hn hname1 hname8 hbank
  obtain ⟨q, hcall, hqc⟩ := call_exists pkt h5 h61
  rw [hpkt, Option.some_bind, send_eval pkt q _ resp true hcall (by rw [hcls]; norm_num)]
  rw [wireOf]
  simp only [Option.some_bind, hcall, Option.map_some, Option.map_some', Option.getD_some]
  rfl

theorem modeStep_send (s : ModeStep) (resp : List Nat)
    (hh : s.hour ≤ 255) (hm : s.minute ≤ 255) :
    (s.packet.bind fun pkt => TC420.send pkt true resp) =
      some ⟨stepWire s, true, ackOk resp⟩ := by
  have hpkt : s.packet =
      some ⟨0x13, [0x55, 0xAA, 0x13, 0, 0, s.hour, s.minute, chByte s.c1, chByte s.c2, chByte s.c3,
                   chByte s.c4, chByte s.c5, jumpFlags [s.c1, s.c2, s.c3, s.c4, s.c5] 0] ++
                    List.replicate 49 0 ++ [0x0D, 0x0A], 13⟩ :=
    modeStep_packet_eq s.hour s.minute s.c1 s.c2 s.c3 s.c4 s.c5 hh hm
  obtain ⟨q, hcall, hqc⟩ := call_exists
    ⟨0x13, [0x55, 0xAA, 0x13, 0, 0, s.hour, s.minute, chByte s.c1, chByte s.c2, chByte s.c3,
            chByte s.c4, chByte s.c5, jumpFlags [s.c1, s.c2, s.c3, s.c4, s.c5] 0] ++
             List.replicate 49 0 ++ [0x0D, 0x0A], 13⟩ (by norm_num) (by norm_num)
  rw [hpkt, Option.some_bind, send_eval _ q _ resp true hcall (by norm_num)]
  rw [stepWire, wireOf, hpkt]
  simp only [Option.some_bind, hcall, Option.map_some, Option.map_some', Option.getD_some, if_pos]

set_option maxHeartbeats 1000000 in
theorem playSet_bridge (c1 c2 c3 c4 c5 : Int) :
    PlaySetChannels c1 c2 c3 c4 c5 =
      addUchars (TC420Packet.new 0x16)
        [0xF5, min 100 c1.natAbs, min 100 c2.natAbs, min 100 c3.natAbs,
         min 100 c4.natAbs, min 100 c5.natAbs, 0] := by
  simp only [PlaySetChannels, addUchars, Option.bind_eq_bind, Option.bind_some]

theorem playSet_packet_eq (c1 c2 c3 c4 c5 : Int) :
    PlaySetChannels c1 c2 c3 c4 c5 =
      some ⟨0x16,
            [0x55, 0xAA, 0x16, 0, 0, 0xF5, min 100 c1.natAbs, min 100 c2.natAbs,
             min 100 c3.natAbs, min 100 c4.natAbs, min 100 c5.natAbs, 0] ++
              List.replicate 50 0 ++ [0x0D, 0x0A], 12⟩ := by
  rw [playSet_bridge]
  have hb := addUchars_build
    [0xF5, min 100 c1.natAbs, min 100 c2.natAbs, min 100 c3.natAbs,
     min 100 c4.natAbs, min 100 c5.natAbs, 0]
    (TC420Packet.new 0x16) [0x55, 0xAA, 0x16, 0, 0] (List.replicate 57 0 ++ [0x0D, 0x0A])
    (by rfl) (by rfl)
    (by
      intro d hd
      simp at hd
      rcases hd with h | h | h | h | h | h | h <;> subst h
      · norm_num
      · exact le_trans (min_le_left _ _) (by norm_num)
      · exact le_trans (min_le_left _ _) (by norm_num)
      · exact le_trans (min_le_left _ _) (by norm_num)
      · exact le_trans (min_le_left _ _) (by norm_num)
      · exact le_trans (min_le_left _ _) (by norm_num)
      · norm_num)
    (by simp)
  rw [hb]
  rfl

theorem playSet_call (c1 c2 c3 c4 c5 : Int) :
    ∃ chk : Nat,
      ((PlaySetChannels c1 c2 c3 c4 c5).bind fun p => p.call true true) =
        some (⟨0x16,
               [0x55, 0xAA, 0x16, 0, 7, 0xF5, min 100 c1.natAbs, min 100 c2.natAbs,
                min 100 c3.natAbs, min 100 c4.natAbs, min 100 c5.natAbs, 0] ++
                 List.replicate 49 0 ++ [chk, 0x0D, 0x0A], 12⟩,
               [0x55, 0xAA, 0x16, 0, 7, 0xF5, min 100 c1.natAbs, min 100 c2.natAbs,
                min 100 c3.natAbs, min 100 c4.natAbs, min 100 c5.natAbs, 0] ++
                 List.replicate 49 0 ++ [chk, 0x0D, 0x0A]) := by
  rw [playSet_packet_eq c1 c2 c3 c4 c5, Option.some_bind]
  set p1 : TC420Packet :=
    ⟨0x16, [0x55, 0xAA, 0x16, 0, 0, 0xF5, min 100 c1.natAbs, min 100 c2.natAbs,
            min 100 c3.natAbs, min 100 c4.natAbs, min 100 c5.natAbs, 0] ++
             List.replicate 50 0 ++ [0x0D, 0x0A], 12⟩ with hp1
  have hsd : p1.set_data_len none =
      some ⟨0x16, [0x55, 0xAA, 0x16, 0, 7, 0xF5, min 100 c1.natAbs, min 100 c2.natAbs,
                   min 100 c3.natAbs, min 100 c4.natAbs, min 100 c5.natAbs, 0] ++
                    List.replicate 50 0 ++ [0x0D, 0x0A], 12⟩ := by
    rw [set_data_len_eval p1 (by norm_num [hp1]) (by norm_num [hp1])]
    rfl
  set p2 : TC420Packet :=
    ⟨0x16, [0x55, 0xAA, 0x16, 0, 7, 0xF5, min 100 c1.natAbs, min 100 c2.natAbs,
            min 100 c3.natAbs, min 100 c4.natAbs, min 100 c5.natAbs, 0] ++
             List.replicate 50 0 ++ [0x0D, 0x0A], 12⟩ with hp2
  refine ⟨p2.calc_checksum, ?_⟩
  have hsc : p2.set_checksum none =
      some ⟨0x16, [0x55, 0xAA, 0x16, 0, 7, 0xF5, min 100 c1.natAbs, min 100 c2.natAbs,
                   min 100 c3.natAbs, min 100 c4.natAbs, min 100 c5.natAbs, 0] ++
                    List.replicate 49 0 ++ [p2.calc_checksum, 0x0D, 0x0A], 12⟩ := by
    rw [set_checksum_eq p2]
    rfl
  rw [call_eq_steps p1 p2 _ hsd hsc]

theorem playSet_data (c1 c2 c3 c4 c5 : Int) :
    (((PlaySetChannels c1 c2 c3 c4 c5).bind fun p => p.call true true).bind
        fun pr => pr.1.data) =
      some [0xF5, min 100 c1.natAbs, min 100 c2.natAbs, min 100 c3.natAbs,
            min 100 c4.natAbs, min 100 c5.natAbs, 0] := by
  obtain ⟨chk, hc⟩ := playSet_call c1 c2 c3 c4 c5
  rw [hc, Option.some_bind]
  rfl

/-! ## Mode-programming sequencing -/

theorem modeStep_exists (s : ModeStep) (hh : s.hour ≤ 255) (hm : s.minute ≤ 255) :
    ∃ pkt, s.packet = some pkt ∧ pkt.clsCommand = 0x13 ∧
      ∃ q, pkt.call true true = some (q, stepWire s) ∧ q.payload = stepWire s := by
  have hpkt : s.packet =
      some ⟨0x13, [0x55, 0xAA, 0x13, 0, 0, s.hour, s.minute, chByte s.c1, chByte s.c2, chByte s.c3,
                   chByte s.c4, chByte s.c5, jumpFlags [s.c1, s.c2, s.c3, s.c4, s.c5] 0] ++
                    List.replicate 49 0 ++ [0x0D, 0x0A], 13⟩ :=
    modeStep_packet_eq s.hour s.minute s.c1 s.c2 s.c3 s.c4 s.c5 hh hm
  obtain ⟨q, hcall, hqc⟩ := call_exists
    ⟨0x13, [0x55, 0xAA, 0x13, 0, 0, s.hour, s.minute, chByte s.c1, chByte s.c2, chByte s.c3,
            chByte s.c4, chByte s.c5, jumpFlags [s.c1, s.c2, s.c3, s.c4, s.c5] 0] ++
             List.replicate 49 0 ++ [0x0D, 0x0A], 13⟩ (by norm_num) (by norm_num)
  have hwire : stepWire s = q.payload := by
    rw [stepWire, wireOf, hpkt]
    simp only [Option.some_bind, hcall, Option.map_some', Option.getD_some]
  exact ⟨_, hpkt, rfl, q, by rw [← hwire] at hcall; exact hcall, hwire.symm⟩

theorem modeSteps_ok (dev : Nat → List Nat) : ∀ (steps : List ModeStep) (reads : Nat),
    (∀ s ∈ steps, s.hour ≤ 255 ∧ s.minute ≤ 255) →
    (∀ i, i < steps.length → ackOk (dev (reads + i)) = true) →
    modeSteps dev steps reads = some ⟨steps.map stepWire, reads + steps.length, true⟩ := by
  intro steps
  induction steps with
  | nil => intro reads _ _; simp [modeSteps]
  | cons s rest ih =>
      intro reads hb hok
      obtain ⟨pkt, hpkt, hcls, q, hcall, hq⟩ :=
        modeStep_exists s (hb s (by simp)).1 (hb s (by simp)).2
      rw [modeSteps, hpkt]
      simp only [Option.bind_eq_bind, Option.some_bind]
      rw [send_eval pkt q _ (dev reads) true hcall (by rw [hcls]; norm_num)]
      have h0 : ackOk (dev reads) = true := by simpa using hok 0 (by simp)
      simp only [Option.some_bind, h0, if_true]
      have hok' : ∀ i, i < rest.length → ackOk (dev (reads + 1 + i)) = true := by
        intro i hi
        have h := hok (i + 1) (by simp; omega)
        have harith : reads + (i + 1) = reads + 1 + i := by omega
        rwa [harith] at h
      rw [ih (reads + 1) (fun x hx => hb x (by simp [hx])) hok']
      simp only [Option.some_bind, List.map_cons]
      have harith : reads + 1 + rest.length = reads + (rest.length + 1) := by omega
      rw [harith]
      rfl

theorem modeSteps_fail (dev : Nat → List Nat) : ∀ (steps : List ModeStep) (reads j : Nat),
    j < steps.length →
    (∀ s ∈ steps, s.hour ≤ 255 ∧ s.minute ≤ 255) →
    (∀ i, i < j → ackOk (dev (reads + i)) = true) →
    ackOk (dev (reads + j)) = false →
    modeSteps dev steps reads =
      some ⟨(steps.take (j + 1)).map stepWire, reads + j + 1, false⟩ := by
  intro steps
  induction steps with
  | nil => intro reads j hj _ _ _; simp at hj
  | cons s rest ih =>
      intro reads j hj hb hok hfail
      obtain ⟨pkt, hpkt, hcls, q, hcall, hq⟩ :=
        modeStep_exists s (hb s (by simp)).1 (hb s (by simp)).2
      rw [modeSteps, hpkt]
      simp only [Option.bind_eq_bind, Option.some_bind]
      rw [send_eval pkt q _ (dev reads) true hcall (by rw [hcls]; norm_num)]
      cases j with
      | zero =>
          have h0 : ackOk (dev reads) = false := by simpa using hfail
          simp only [Option.some_bind, h0, if_false, Bool.false_eq_true, reduceIte]
          rfl
      | succ j =>
          have h0 : ackOk (dev reads) = true := by simpa using hok 0 (by omega)
          simp only [Option.some_bind, h0, if_true]
          have hok' : ∀ i, i < j → ackOk (dev (reads + 1 + i)) = true := by
            intro i hi
            have h := hok (i + 1) (by omega)
            have harith : reads + (i + 1) = reads + 1 + i := by omega
            rwa [harith] at h
          have hfail' : ackOk (dev (reads + 1 + j)) = false := by
            have harith : reads + (j + 1) = reads + 1 + j := by omega
            rwa [harith] at hfail
          rw [ih (reads + 1) j (by simpa using hj) (fun x hx => hb x (by simp [hx])) hok' hfail']
          simp only [Option.some_bind, List.take_succ_cons, List.map_cons]
          have harith : reads + 1 + j + 1 = reads + (j + 1) + 1 := by omega
          rw [harith]
          rfl

theorem mode_eval_ok (dev : Nat → List Nat) (name : List Nat) (steps : List ModeStep) (bank : Nat)
    (hN : 2 ≤ steps.length) (hN255 : steps.length ≤ 255)
    (hname1 : 0 < name.length) (hname8 : name.length ≤ 8) (hbank : bank < 64)
    (hb : ∀ s ∈ steps, s.hour ≤ 255 ∧ s.minute ≤ 255)
    (hack : ∀ i, i ≤ steps.length → ackOk (dev i) = true) :
    TC420.mode dev name steps bank =
      some ⟨wireOf (ModeInitPacket steps.length name bank) :: steps.map stepWire
              ++ [wireOf (some ModeStepsStopPacket)],
            steps.length + 1, true⟩ := by
  rw [TC420.mode, if_pos ⟨hN, by simpa using List.length_pos.mp hname1, hbank⟩]
  obtain ⟨pkt, hpkt, hcls, h5, h61⟩ :=
    modeInit_exists steps.length name bank (by omega) hN255 hname1 hname8 (by omega)
  obtain ⟨q, hcall, hqc⟩ := call_exists pkt h5 h61
  have hwire : wireOf (some pkt) = q.payload := by
    rw [wireOf]
    simp only [Option.some_bind, hcall, Option.map_some', Option.getD_some]
  rw [hpkt]
  simp only [Option.bind_eq_bind, Option.some_bind]
  rw [send_eval pkt q _ (dev 0) true hcall (by rw [hcls]; norm_num)]
  have h0 : ackOk (dev 0) = true := hack 0 (by omega)
  simp only [Option.some_bind, h0, if_true]
  have hok1 : ∀ i, i < steps.length → ackOk (dev (1 + i)) = true := by
    intro i hi
    have h := hack (i + 1) (by omega)
    have harith : i + 1 = 1 + i := by omega
    rwa [harith] at h
  rw [modeSteps_ok dev steps 1 hb hok1]
  simp only [Option.some_bind]
  rw [send_stop_eval (dev (1 + steps.length))]
  simp only [Option.some_bind, hwire, if_true, Option.pure_def]
  have harith : 1 + steps.length = steps.length + 1 := by omega
  rw [harith]

theorem mode_eval_init_fail (dev : Nat → List Nat) (name : List Nat) (steps : List ModeStep)
    (bank : Nat)
    (hN : 2 ≤ steps.length) (hN255 : steps.length ≤ 255)
    (hname1 : 0 < name.length) (hname8 : name.length ≤ 8) (hbank : bank < 64)
    (hfail : ackOk (dev 0) = false) :
    TC420.mode dev name steps bank =
      some ⟨[wireOf (ModeInitPacket steps.length name bank)], 1, false⟩ := by
  rw [TC420.mode, if_pos ⟨hN, by simpa using List.length_pos.mp hname1, hbank⟩]
  obtain ⟨pkt, hpkt, hcls, h5, h61⟩ :=
    modeInit_exists steps.length name bank (by omega) hN255 hname1 hname8 (by omega)
  obtain ⟨q, hcall, hqc⟩ := call_exists pkt h5 h61
  have hwire : wireOf (some pkt) = q.payload := by
    rw [wireOf]
    simp only [Option.some_bind, hcall, Option.map_some', Option.getD_some]
  rw [hpkt]
  simp only [Option.bind_eq_bind, Option.some_bind]
  rw [send_eval pkt q _ (dev 0) true hcall (by rw [hcls]; norm_num)]
  simp only [Option.some_bind, hfail, Bool.false_eq_true, reduceIte, hwire, Option.pure_def]

theorem mode_eval_step_fail (dev : Nat → List Nat) (name : List Nat) (steps : List ModeStep)
    (bank : Nat) (j : Nat)
    (hN : 2 ≤ steps.length) (hN255 : steps.length ≤ 255)
    (hname1 : 0 < name.length) (hname8 : name.length ≤ 8) (hbank : bank < 64)
    (hb : ∀ s ∈ steps, s.hour ≤ 255 ∧ s.minute ≤ 255)
    (hj : j < steps.length)
    (hok : ∀ i, i ≤ j → ackOk (dev i) = true)
    (hfail : ackOk (dev (j + 1)) = false) :
    TC420.mode dev name steps bank =
      some ⟨wireOf (ModeInitPacket steps.length name bank) :: (steps.take (j + 1)).map stepWire,
            j + 2, false⟩ := by
  rw [TC420.mode, if_pos ⟨hN, by simpa using List.length_pos.mp hname1, hbank⟩]
  obtain ⟨pkt, hpkt, hcls, h5, h61⟩ :=
    modeInit_exists steps.length name bank (by omega) hN255 hname1 hname8 (by omega)
  obtain ⟨q, hcall, hqc⟩ := call_exists pkt h5 h61
  have hwire : wireOf (some pkt) = q.payload := by
    rw [wireOf]
    simp only [Option.some_bind, hcall, Option.map_some', Option.getD_some]
  rw [hpkt]
  simp only [Option.bind_eq_bind, Option.some_bind]
  rw [send_eval pkt q _ (dev 0) true hcall (by rw [hcls]; norm_num)]
  have h0 : ackOk (dev 0) = true := hok 0 (by omega)
  simp only [Option.some_bind, h0, if_true]
  have hok1 : ∀ i, i < j → ackOk (dev (1 + i)) = true := by
    intro i hi
    have h := hok (i + 1) (by omega)
    have harith : i + 1 = 1 + i := by omega
    rwa [harith] at h
  have hfail1 : ackOk (dev (1 + j)) = false := by
    have harith : j + 1 = 1 + j := by omega
    rwa [harith] at hfail
  rw [modeSteps_fail dev steps 1 j hj hb hok1 hfail1]
  simp only [Option.some_bind, hwire, Bool.false_eq_true, reduceIte, Option.pure_def]
  have harith : 1 + j + 1 = j + 2 := by omega
  rw [harith]

/-! ## Inversion helpers -/

theorem set_data_len_inv (p q : TC420Packet) (h : p.set_data_len none = some q) :
    ∃ b0 b1, q.payload = writeSlice p.payload 3 [b0, b1] ∧ q.pointer = p.pointer := by
  simp only [TC420Packet.set_data_len, Option.getD_none] at h
  by_cases hdl : p.pointer - 5 ≤ 56
  · rw [if_pos hdl, TC420Packet.add_ushort, if_pos (by omega)] at h
    have ha : p.add_string [(p.pointer - 5) / 256, (p.pointer - 5) % 256] (some 3) =
        some ⟨p.clsCommand,
              writeSlice p.payload 3 [(p.pointer - 5) / 256, (p.pointer - 5) % 256],
              p.pointer⟩ :=
      add_string_at p 3 _ (by simp) (by simp)
    rw [ha, Option.some_inj] at h
    exact ⟨_, _, by rw [← h], by rw [← h]⟩
  · rw [if_neg hdl] at h
    exact absurd h (by simp)

theorem set_checksum_inv (p q : TC420Packet) (h : p.set_checksum none = some q) :
    q = ⟨p.clsCommand, writeSlice p.payload 61 [p.calc_checksum], p.pointer⟩ := by
  have he := set_checksum_eq p
  rw [h, Option.some_inj] at he
  exact he

theorem ackOk_iff (resp : List Nat) :
    ackOk resp = true ↔
      ((TC420Packet.ofPayload 0 resp).data_len = some 1 ∧
        (TC420Packet.ofPayload 0 resp).data = some TC420.OK) := by
  simp [ackOk]

/-! ## Claims C3, C8, C9 -/

/-- Claim C3: for every packet finalized for transmission with default
arguments (data length then checksum written), the checksum byte stored
at absolute offset 61 equals the sum of the payload bytes at offsets 0
through 60 taken modulo 256. -/
theorem checksum_invariant (p p' : TC420Packet) (frame : List Nat)
    (hlen : p.payload.length = 64) (h : p.call true true = some (p', frame)) :
    frame[61]? = some ((frame.take 61).sum % 256) := by
  obtain ⟨p1, hsd, hsc, hframe⟩ := call_inv p p' frame h
  obtain ⟨b0, b1, hq, hqp⟩ := set_data_len_inv p p1 hsd
  have hlen1 : p1.payload.length = 64 := by
    rw [hq, writeSlice_length]
    · exact hlen
    · simp [hlen]
  have hp' := set_checksum_inv p1 p' hsc
  have hfr : frame = p1.payload.take 61 ++ ([p1.calc_checksum] ++ p1.payload.drop 62) := by
    rw [hframe, hp']
    show writeSlice p1.payload 61 [p1.calc_checksum] = _
    rw [writeSlice, List.append_assoc]
    norm_num
  have hck : p1.calc_checksum = (p1.payload.take 61).sum % 256 := by
    rw [TC420Packet.calc_checksum, hlen1]
    rw [show (64 - 3 : Nat) = 61 from rfl]
    rw [foldl_mod_eq _ 0 (by norm_num), Nat.zero_add]
  have htake61 : (p1.payload.take 61).length = 61 := by
    rw [List.length_take, hlen1]
    norm_num
  rw [hfr]
  have h1 : (p1.payload.take 61 ++ ([p1.calc_checksum] ++ p1.payload.drop 62))[61]? =
      some p1.calc_checksum := by
    rw [List.getElem?_append_right (by omega)]
    rw [htake61]
    simp
  have h2 : (p1.payload.take 61 ++ ([p1.calc_checksum] ++ p1.payload.drop 62)).take 61 =
      p1.payload.take 61 :=
    List.take_left' htake61
  rw [h1, h2, ← hck]

/-- Claim C3 witness: the finalized `ModeStopPacket` frame. -/
theorem checksum_invariant_witness :
    wStopFrame[61]? = some ((wStopFrame.take 61).sum % 256) :=
  checksum_invariant ModeStopPacket ⟨2, wStopFrame, 5⟩ wStopFrame (by decide) (by decide)

/-- Claim C8: finalizing any packet to its 64-byte wire string and
parsing that string back as a packet yields identical `magic`,
`command`, `data_len` and `data` as the finalized original. -/
theorem frame_roundtrip (p p' : TC420Packet) (frame : List Nat)
    (h : p.call true true = some (p', frame)) :
    (TC420Packet.ofPayload 0 frame).magic = p'.magic ∧
    (TC420Packet.ofPayload 0 frame).command = p'.command ∧
    (TC420Packet.ofPayload 0 frame).data_len = p'.data_len ∧
    (TC420Packet.ofPayload 0 frame).data = p'.data := by
  obtain ⟨p1, hsd, hsc, hframe⟩ := call_inv p p' frame h
  exact accessors_eq_of_payload_eq _ _ (by rw [hframe]; rfl)

/-- Claim C8 witness: round-tripping the `ModeStopPacket` frame. -/
theorem frame_roundtrip_witness :
    (TC420Packet.ofPayload 0 wStopFrame).magic = (⟨2, wStopFrame, 5⟩ : TC420Packet).magic ∧
    (TC420Packet.ofPayload 0 wStopFrame).command = (⟨2, wStopFrame, 5⟩ : TC420Packet).command ∧
    (TC420Packet.ofPayload 0 wStopFrame).data_len = (⟨2, wStopFrame, 5⟩ : TC420Packet).data_len ∧
    (TC420Packet.ofPayload 0 wStopFrame).data = (⟨2, wStopFrame, 5⟩ : TC420Packet).data :=
  frame_roundtrip ModeStopPacket ⟨2, wStopFrame, 5⟩ wStopFrame (by decide)

/-- Claim C9: a write without an explicit offset starts at the cursor
and advances it by exactly the number of bytes written, while a write
at offset `-3` always lands at absolute offset 61 and leaves the
cursor unchanged, whatever the cursor's value. -/
theorem cursor_discipline :
    (∀ (p p₁ : TC420Packet) (d : List Nat), p.add_string d none = some p₁ →
        p₁.pointer = p.pointer + d.length ∧ p₁.payload = writeSlice p.payload p.pointer d) ∧
    (∀ (p p₂ : TC420Packet) (d : List Nat), p.add_string d (some (-3)) = some p₂ →
        p₂.pointer = p.pointer ∧ p₂.payload = writeSlice p.payload 61 d) := by
  constructor
  · intro p p₁ d h
    rcases d with _ | ⟨b, bs⟩
    · rw [TC420Packet.add_string] at h
      simp at h
      subst h
      simp [writeSlice]
    · rw [TC420Packet.add_string] at h
      simp only [reduceCtorEq, if_false, reduceIte] at h
      by_cases hg : (p.pointer : Int) + (b :: bs).length ≤ 62
      · rw [if_pos hg, Option.some_inj] at h
        subst h
        exact ⟨rfl, rfl⟩
      · rw [if_neg hg] at h
        exact absurd h (by simp)
  · intro p p₂ d h
    rcases d with _ | ⟨b, bs⟩
    · rw [TC420Packet.add_string] at h
      simp at h
      subst h
      simp [writeSlice]
    · rw [TC420Packet.add_string] at h
      simp only [reduceCtorEq, if_false, reduceIte] at h
      by_cases hg : (61 : Int) + (b :: bs).length ≤ 62
      · rw [if_pos (by simpa using hg), Option.some_inj] at h
        subst h
        exact ⟨rfl, rfl⟩
      · rw [if_neg (by simpa using hg)] at h
        exact absurd h (by simp)

/-- Claim C9 witness: a one-byte cursor write and a one-byte write at
offset `-3` on a fresh packet. -/
theorem cursor_discipline_witness :
    ((TC420Packet.new 0).add_string [7] none = some wWritten →
        wWritten.pointer = (TC420Packet.new 0).pointer + [7].length ∧
        wWritten.payload = writeSlice (TC420Packet.new 0).payload (TC420Packet.new 0).pointer [7]) ∧
    ((TC420Packet.new 0).add_string [9] (some (-3)) =
        some ⟨0, writeSlice (TC420Packet.new 0).payload 61 [9], 5⟩ →
        (⟨0, writeSlice (TC420Packet.new 0).payload 61 [9], 5⟩ : TC420Packet).pointer =
          (TC420Packet.new 0).pointer ∧
        (⟨0, writeSlice (TC420Packet.new 0).payload 61 [9], 5⟩ : TC420Packet).payload =
          writeSlice (TC420Packet.new 0).payload 61 [9]) :=
  ⟨cursor_discipline.1 (TC420Packet.new 0) wWritten [7],
   cursor_discipline.2 (TC420Packet.new 0) ⟨0, writeSlice (TC420Packet.new 0).payload 61 [9], 5⟩ [9]⟩

/-! ## Claim C2 -/

/-- Claim C2: for every completed `send(packet, check)` exchange
(absent a transport fault), the result is true iff `check` is false, or
the packet's class command is the mode-steps-stop command (in which
case no response read is attempted — `readAttempted = false` exactly
then), or the 64-byte response decodes with `data_len == 1` and
`data == [0x00]`; any other decoded content makes the result `false`
rather than an error. -/
theorem send_ack_semantics (pkt : TC420Packet) (check : Bool) (resp : List Nat)
    (r : SendResult) (h : TC420.send pkt check resp = some r) :
    (r.readAttempted = false ↔ pkt.clsCommand = ModeStepsStopPacket.clsCommand) ∧
    (r.result = true ↔
      (check = false ∨ pkt.clsCommand = ModeStepsStopPacket.clsCommand ∨
        ((TC420Packet.ofPayload 0 resp).data_len = some 1 ∧
          (TC420Packet.ofPayload 0 resp).data = some TC420.OK))) := by
  rcases hc : pkt.call true true with _ | ⟨q, w⟩
  · rw [TC420.send, hc] at h
    exact absurd h (by simp)
  · by_cases hcmd : pkt.clsCommand = ModeStepsStopPacket.clsCommand
    · have hs : TC420.send pkt check resp = some ⟨w, false, true⟩ := by
        rw [TC420.send, hc]
        simp [hcmd]
      rw [hs, Option.some_inj] at h
      subst h
      refine ⟨by simp [hcmd], ?_⟩
      simp only [true_iff]
      exact Or.inr (Or.inl hcmd)
    · rw [send_eval pkt q w resp check hc hcmd, Option.some_inj] at h
      subst h
      refine ⟨by simp [hcmd], ?_⟩
      cases check with
      | false => simp
      | true =>
          simp only [if_pos]
          rw [ackOk_iff]
          simp [hcmd]

/-- Claim C2 witness: a `ModeStopPacket` exchange with `check` on and a
well-formed ack response. -/
theorem send_ack_semantics_witness :
    (wSendRes.readAttempted = false ↔ ModeStopPacket.clsCommand = ModeStepsStopPacket.clsCommand) ∧
    (wSendRes.result = true ↔
      (true = false ∨ ModeStopPacket.clsCommand = ModeStepsStopPacket.clsCommand ∨
        ((TC420Packet.ofPayload 0 wAckResp).data_len = some 1 ∧
          (TC420Packet.ofPayload 0 wAckResp).data = some TC420.OK))) :=
  send_ack_semantics ModeStopPacket true wAckResp wSendRes (by decide)

/-! ## Claim C1 -/

/-- Claim C1: a call to `mode(name, steps, bank)` with `N = len(steps) ≥ 2`
(and constructible arguments) transmits exactly one mode-init frame
first, then exactly `N` mode-step frames in input order, then exactly
one mode-steps-stop frame for which no response read is attempted
(`N + 1` reads in total); if the init exchange fails only the init
frame was sent, and if step `j` is the first failing step exchange the
transmission stops right after that step's frame — the remaining step
frames and the steps-stop frame are never sent. -/
theorem mode_sequencing (dev : Nat → List Nat) (name : List Nat) (steps : List ModeStep)
    (bank : Nat)
    (hN : 2 ≤ steps.length) (hN255 : steps.length ≤ 255)
    (hname1 : 0 < name.length) (hname8 : name.length ≤ 8) (hbank : bank < 64)
    (hb : ∀ s ∈ steps, s.hour ≤ 255 ∧ s.minute ≤ 255) :
    ((∀ i, i ≤ steps.length → ackOk (dev i) = true) →
        TC420.mode dev name steps bank =
          some ⟨wireOf (ModeInitPacket steps.length name bank) :: steps.map stepWire
                  ++ [wireOf (some ModeStepsStopPacket)],
                steps.length + 1, true⟩) ∧
    (ackOk (dev 0) = false →
        TC420.mode dev name steps bank =
          some ⟨[wireOf (ModeInitPacket steps.length name bank)], 1, false⟩) ∧
    (∀ j, j < steps.length → (∀ i, i ≤ j → ackOk (dev i) = true) →
        ackOk (dev (j + 1)) = false →
        TC420.mode dev name steps bank =
          some ⟨wireOf (ModeInitPacket steps.length name bank)
                  :: (steps.take (j + 1)).map stepWire,
                j + 2, false⟩) ∧
    (∀ resp, (TC420.send ModeStepsStopPacket true resp).map (·.readAttempted) = some false) :=
  ⟨fun hack => mode_eval_ok dev name steps bank hN hN255 hname1 hname8 hbank hb hack,
   fun hfail => mode_eval_init_fail dev name steps bank hN hN255 hname1 hname8 hbank hfail,
   fun j hj hok hfail =>
     mode_eval_step_fail dev name steps bank j hN hN255 hname1 hname8 hbank hb hj hok hfail,
   fun resp => by rw [send_stop_eval resp]; rfl⟩

/-- Claim C1 witness: a two-step mode programmed against a device that
acknowledges every exchange. -/
theorem mode_sequencing_witness :
    TC420.mode (fun _ => wAckResp) [77] [wStep1, wStep2] 0 =
      some ⟨wireOf (ModeInitPacket 2 [77] 0) :: [wStep1, wStep2].map stepWire
              ++ [wireOf (some ModeStepsStopPacket)],
            3, true⟩ :=
  (mode_sequencing (fun _ => wAckResp) [77] [wStep1, wStep2] 0
      (by decide) (by decide) (by decide) (by decide) (by decide)
      (by decide)).1
    (fun i _ => by decide)

/-! ## Claims C4, C5, C6, C7, C10 -/

/-- Claim C4 (code bug): `TimeSyncPacket` built from the date
2024-01-15 10:30:45 does encode the seven data bytes
`[0x07,0xE8,0x01,0x0F,0x0A,0x1E,0x2D]` (year big-endian, month, day,
hour, minute, second) — but `time_sync` itself constructs
`TimeSyncPacket()` with no argument, so the frame it transmits encodes
the host clock (`now`), not the `date` argument, contradicting the
function's own docstring. -/
theorem time_sync_ignores_date :
    ((((TimeSyncPacket wNowDate (some wClaimDate)).bind fun p => p.call true true).bind
        fun pr => pr.1.data) =
      some [0x07, 0xE8, 0x01, 0x0F, 0x0A, 0x1E, 0x2D]) ∧
    ((TC420.time_sync wNowDate (some wClaimDate) wAckResp).map
        (fun r => (TC420Packet.ofPayload 0 r.frame).data) =
      some (some [0x07, 0xE7, 6, 7, 8, 9, 10])) ∧
    ([0x07, 0xE7, 6, 7, 8, 9, 10] ≠ [0x07, 0xE8, 0x01, 0x0F, 0x0A, 0x1E, 0x2D]) := by
  refine ⟨by decide, by decide, by decide⟩

/-- Claim C5 counterexample: the play-set-channels (0x16) frame built
from channel code `-1` carries wire byte `1 = min(100, abs(-1))` — not
`0 = min(100, abs(-1) - 1)` as the claim prescribes — and its flags
byte is the constant `0`, whose bit 0 is not set. -/
theorem play_set_channels_counterexample :
    ((((PlaySetChannels (-1) 0 0 0 0).bind fun p => p.call true true).bind
        fun pr => pr.1.data) =
      some [0xF5, 1, 0, 0, 0, 0, 0]) ∧
    ((1 : Nat) ≠ min 100 ((-1 : Int).natAbs - 1)) ∧
    (Nat.testBit 0 0 = false) := by
  refine ⟨by decide, by decide, by decide⟩

set_option maxHeartbeats 1000000 in
/-- Claim C5 (amended): in mode-step (0x13) frames a negative channel
code `c` is carried as `min(100, abs(c) - 1)` with the corresponding
jump-flag bit set and a non-negative `c` as `min(100, c)` with its bit
clear; play-set-channels (0x16) frames instead carry `min(100, abs(c))`
for every code and an always-zero flags byte. -/
theorem channel_encoding_amended (hour minute : Nat) (c1 c2 c3 c4 c5 : Int)
    (hh : hour ≤ 255) (hm : minute ≤ 255) :
    ((((ModeStepPacket hour minute c1 c2 c3 c4 c5).bind fun p => p.call true true).bind
        fun pr => pr.1.data) =
      some [hour, minute, chByte c1, chByte c2, chByte c3, chByte c4, chByte c5,
            jumpFlags [c1, c2, c3, c4, c5] 0]) ∧
    (∀ c : Int, c < 0 → chByte c = min 100 (c.natAbs - 1)) ∧
    (∀ c : Int, 0 ≤ c → chByte c = min 100 c.toNat) ∧
    (∀ b, b < 5 →
      ((jumpFlags [c1, c2, c3, c4, c5] 0).testBit b = true ↔ [c1, c2, c3, c4, c5].getD b 0 < 0)) ∧
    ((((PlaySetChannels c1 c2 c3 c4 c5).bind fun p => p.call true true).bind
        fun pr => pr.1.data) =
      some [0xF5, min 100 c1.natAbs, min 100 c2.natAbs, min 100 c3.natAbs,
            min 100 c4.natAbs, min 100 c5.natAbs, 0]) := by
  refine ⟨modeStep_data hour minute c1 c2 c3 c4 c5 hh hm, ?_, ?_, ?_, playSet_data c1 c2 c3 c4 c5⟩
  · intro c hc
    rw [chByte, jumpAdjust, if_pos hc]
    congr 1
    omega
  · intro c hc
    rw [chByte, jumpAdjust, if_neg (by omega)]
    congr 1
    omega
  · intro b hb
    interval_cases b <;>
        simp only [jumpFlags] <;> split_ifs <;>
      first
        | exact iff_of_true (by decide) (by simp_all)
        | exact iff_of_false (by decide) (by simp_all)

/-- Claim C5 witness: the amended encoding at hour 10:30 with channel
codes `-1, 0, 100, -101, 200`. -/
theorem channel_encoding_amended_witness :
    ((((ModeStepPacket 10 30 (-1) 0 100 (-101) 200).bind fun p => p.call true true).bind
        fun pr => pr.1.data) =
      some [10, 30, chByte (-1), chByte 0, chByte 100, chByte (-101), chByte 200,
            jumpFlags [-1, 0, 100, -101, 200] 0]) ∧
    (∀ c : Int, c < 0 → chByte c = min 100 (c.natAbs - 1)) ∧
    (∀ c : Int, 0 ≤ c → chByte c = min 100 c.toNat) ∧
    (∀ b, b < 5 →
      ((jumpFlags [-1, 0, 100, -101, 200] 0).testBit b = true ↔
        [(-1 : Int), 0, 100, -101, 200].getD b 0 < 0)) ∧
    ((((PlaySetChannels (-1) 0 100 (-101) 200).bind fun p => p.call true true).bind
        fun pr => pr.1.data) =
      some [0xF5, min 100 ((-1 : Int)).natAbs, min 100 ((0 : Int)).natAbs,
            min 100 ((100 : Int)).natAbs, min 100 ((-101 : Int)).natAbs,
            min 100 ((200 : Int)).natAbs, 0]) :=
  channel_encoding_amended 10 30 (-1) 0 100 (-101) 200 (by decide) (by decide)

/-- Claim C6: in the play-engine worker loop, a fade-coded channel with
baseline 0, target 100, duration 10 s and elapsed 5 s displays
`round(0 + (100 - 0) * 5/10) = 50`; and in every iteration whose
elapsed time reaches the step duration the displayed values equal the
step's targets exactly and the baseline is updated to them. -/
theorem play_interpolation :
    ((playIteration ⟨0, [0, 0, 0, 0, 0], [0, 0, 0, 0, 0], some (10, [100, 0, 0, 0, 0]), 0⟩
        5 true).state.cur = [50, 0, 0, 0, 0]) ∧
    (∀ (st : PlayState) (now dur : ℚ) (targets : List Int) (cb : Bool),
      st.stepData = some (dur, targets) → now - st.stepStart ≥ dur →
      (playIteration st now cb).state.cur = targets ∧
        (playIteration st now cb).state.last = targets) := by
  constructor
  · norm_num [playIteration, newChannelValue, pyRound, Rat.floor_def', List.range_succ]
  · intro st now dur targets cb hsd hel
    simp [playIteration, hsd, hel]

/-- Claim C6 witness: committing an expired step updates displayed and
baseline values to the target. -/
theorem play_interpolation_witness :
    (playIteration wExpiredState 10 true).state.cur = [100, 0, 0, 0, 0] ∧
      (playIteration wExpiredState 10 true).state.last = [100, 0, 0, 0, 0] :=
  play_interpolation.2 wExpiredState 10 10 [100, 0, 0, 0, 0] true rfl (by norm_num [wExpiredState])

/-- Claim C7 (code bug): in an iteration whose computed channel values
are unchanged from the previous iteration (all stay `[0,0,0,0,0]`), the
worker still invokes `onchange_callback` — the code calls it on every
iteration with a pending step, contradicting its own comment and the
claim that it fires only when values differ. -/
theorem onchange_called_on_unchanged_values :
    ((playIteration ⟨0, [0, 0, 0, 0, 0], [0, 0, 0, 0, 0], some (10, [0, 0, 0, 0, 0]), 0⟩
        5 true).state.cur = [0, 0, 0, 0, 0]) ∧
    ((playIteration ⟨0, [0, 0, 0, 0, 0], [0, 0, 0, 0, 0], some (10, [0, 0, 0, 0, 0]), 0⟩
        5 true).onchangeCalled = true) := by
  constructor
  · norm_num [playIteration, newChannelValue, pyRound, Rat.floor_def', List.range_succ]
  · norm_num [playIteration]

/-- Claim C10: constructing `TC420(dev_index)` with a negative index
`k`, `-len(devices) ≤ k ≤ -1`, does not raise `NoDeviceFoundError`:
the out-of-range check only rejects `dev_index ≥ len(devices)`, so the
negative index silently selects the device counted from the end of the
bus/port-path-sorted list. -/
theorem negative_index_selects_from_end {α : Type} (devices : List α) (key : α → String)
    (k : Int) (hne : devices ≠ []) (hlow : -(devices.length : Int) ≤ k) (hhigh : k ≤ -1) :
    selectDevice devices key k ≠ SelectResult.noDeviceFound ∧
    ∃ d, selectDevice devices key k = SelectResult.found d ∧
      (sortDevices devices key)[(k + devices.length).toNat]? = some d := by
  have hlen : 0 < devices.length := List.length_pos.mpr hne
  have hsort : (sortDevices devices key).length = devices.length := by
    rw [sortDevices, List.length_mergeSort]
  have hsel : selectDevice devices key k =
      SelectResult.found ((sortDevices devices key).get
        ⟨(k + (devices.length : Int)).toNat, by rw [hsort]; omega⟩) := by
    rw [selectDevice]
    rw [if_neg (by simpa [List.isEmpty_iff] using hne)]
    rw [if_neg (by omega)]
    rw [dif_pos (by constructor <;> [omega; (rw [hsort]; omega)])]
    simp only [if_pos (show k < 0 by omega)]
    congr 1
    exact congrArg _ (Fin.ext (by simp [hsort]))
  refine ⟨by rw [hsel]; simp, ⟨_, hsel, ?_⟩⟩
  rw [List.getElem?_eq_getElem (show (k + (devices.length : Int)).toNat <
      (sortDevices devices key).length by rw [hsort]; omega)]
  simp [List.get_eq_getElem]

/-- Claim C10 witness: index `-1` on three attached devices selects the
last device of the path-sorted list. -/
theorem negative_index_selects_from_end_witness :
    selectDevice ["b", "a", "c"] id (-1) ≠ SelectResult.noDeviceFound ∧
    ∃ d, selectDevice ["b", "a", "c"] id (-1) = SelectResult.found d ∧
      (sortDevices ["b", "a", "c"] id)[((-1 : Int) + (["b", "a", "c"] : List String).length).toNat]? =
        some d :=
  negative_index_selects_from_end ["b", "a", "c"] id (-1) (by decide) (by decide) (by decide)
